import Mathlib

/-!
Verification of the conversation-persistence layer, credential broker and
run-state reconciler of the call-center insights backend.

The Python sources under `src/backend/` are embedded shallowly:

* `cosmos_service.py` — the durable store (`CosmosDBService`).  The two Cosmos
  containers are modelled as Lean lists of documents; a SQL `ORDER BY` is
  modelled as a stable insertion sort by the ordering key; `datetime.utcnow()`
  and `uuid` generation are modelled by one strictly monotone logical clock
  (`now`), which is the standard idealisation of wall-clock timestamps.
* `conversation_service.py` — the façade (`ConversationService`) with its
  in-process fallback dictionary, modelled as an association list.
* `ai_foundry_service.py` — the OBO token exchange (`_get_azure_ai_token`),
  the run reconciler (`_ensure_no_active_runs`) and history replay
  (`replay_history`).  Remote behaviour (MSAL outcomes, run listings) is
  supplied by oracles so the control flow of the Python code is what is
  being verified.

Python string slicing `s[:n]` and `len(s)` act on code points, which matches
`List Char`; we expose them as `pySlice` / `pyLen` on the underlying
character data of a `String`.
-/

namespace CCAI

/-- Python `s[:n]` (slice of the first `n` code points). -/
def pySlice (s : String) (n : Nat) : String := String.mk (s.data.take n)

/-- Python `str.isspace` for one character — the set `str.strip()` removes:
the ASCII range 09–0D (tab, LF, vertical tab, form feed, CR), the
information separators 1C–1F, the space 20, NEL 85, NBSP A0, and the
Unicode space separators 1680, 2000–200A, 2028, 2029, 202F, 205F, 3000. -/
def pyIsSpace (c : Char) : Bool :=
  let n := c.toNat
  (9 ≤ n && n ≤ 13) || (28 ≤ n && n ≤ 31) || n == 32 || n == 133 || n == 160 ||
    n == 5760 || (8192 ≤ n && n ≤ 8202) || n == 8232 || n == 8233 ||
    n == 8239 || n == 8287 || n == 12288

/-- Python `s.strip()`: remove leading and trailing whitespace
(`pyIsSpace`). -/
def pyStrip (s : String) : String :=
  String.mk (((s.data.dropWhile pyIsSpace).reverse.dropWhile pyIsSpace).reverse)

/-- Python `len(s)` (number of code points). -/
def pyLen (s : String) : Nat := s.data.length

/-! ### Data model (`chat_models.py`)

`ChatMessage`: we keep the fields the claims speak about (`id`, `sessionId`,
`role`, `content`, `createdAt`, `attachments`, `feedback`).  The remaining
optional payload fields (`tokens`, `toolCalls`, `vector`, `grounding`) are
stored and returned unchanged by every operation below exactly like
`attachments`, so they are elided.  An attachment record is stored and
listed byte-for-byte without inspection, so it is modelled as a bare
`String` payload. -/

structure MessageDoc where
  id : String
  sessionId : String
  /-- `MessageRole` value: one of `"user"`, `"assistant"`, `"tool"`. -/
  role : String
  content : String
  /-- `createdAt` timestamp, modelled as a logical clock value. -/
  createdAt : Nat
  attachments : List String
  feedback : Option String
  deriving Repr, DecidableEq

/-- `ChatSession` as stored in the Sessions container (`cosmos_service.py`).
`type` is the document discriminator, defaulted to `"session"` by the model
class. -/
structure SessionDoc where
  id : String
  type : String
  userId : String
  user_name : String
  title : String
  agentId : Option String
  conversation_id : Option String
  createdAt : Nat
  lastActiveAt : Nat
  is_active : Bool
  deriving Repr, DecidableEq

/-- State of `CosmosDBService`: the two containers plus the logical clock
standing for `datetime.utcnow()` / `uuid` freshness. -/
structure CosmosState where
  sessions : List SessionDoc
  messages : List MessageDoc
  now : Nat
  deriving Repr, DecidableEq

/-- `sessions_container.read_item(item=session_id, partition_key=user_id)`:
succeeds exactly when a document with that id exists in that user partition. -/
def readSession (cs : CosmosState) (sessionId userId : String) : Option SessionDoc :=
  cs.sessions.find? (fun s => s.id == sessionId && s.userId == userId)

/-- The values of the `MessageRole` enum; `MessageRole(role)` raises
`ValueError` for any other string. -/
def validRoles : List String := ["user", "assistant", "tool"]

/-- Titles that `_update_session_activity` still treats as default
placeholders. -/
def placeholderTitles : List String := ["New Conversation", "New Chat"]

/-- `content[:50] + ("..." if len(content) > 50 else "")` from
`_update_session_activity`. -/
def deriveTitle (content : String) : String :=
  pySlice content 50 ++ (if 50 < pyLen content then "..." else "")

/-- The per-document update performed by `_update_session_activity`:
bump `lastActiveAt`; derive a title from the first user message only while
the title is still a default placeholder. -/
def touchSession (now : Nat) (content role : String) (s : SessionDoc) : SessionDoc :=
  { s with
    lastActiveAt := now
    title :=
      if role == "user" && placeholderTitles.contains s.title then deriveTitle content
      else s.title }

/-- `CosmosDBService._update_session_activity`: read the session document,
update activity/title, replace it.  (Its own failures are swallowed with a
warning, leaving the state unchanged; a missing document therefore changes
nothing, which the map below reproduces.) -/
def updateSessionActivity (cs : CosmosState) (sessionId userId content role : String) :
    CosmosState :=
  { cs with
    sessions := cs.sessions.map (fun s =>
      if s.id == sessionId && s.userId == userId then touchSession cs.now content role s
      else s) }

/-- `f"msg_{uuid.uuid4().hex[:12]}"`, with uuid freshness supplied by the
logical clock. -/
def freshMessageId (cs : CosmosState) : String := "msg_" ++ toString cs.now

/-- `CosmosDBService.add_message_to_session`.  Returns `True` on success and
`False` when the session is not found for the user or any step raises
(`MessageRole(role)` raising `ValueError` included) — the method catches all
its own exceptions. -/
def addMessageToSession (cs : CosmosState) (sessionId userId content role : String)
    (attachments : List String) : Bool × CosmosState :=
  match readSession cs sessionId userId with
  | none => (false, cs)
  | some _ =>
    if validRoles.contains role then
      let msg : MessageDoc :=
        { id := freshMessageId cs, sessionId := sessionId, role := role, content := content,
          createdAt := cs.now, attachments := attachments, feedback := none }
      let cs1 : CosmosState := { cs with messages := cs.messages ++ [msg], now := cs.now + 1 }
      (true, updateSessionActivity cs1 sessionId userId content role)
    else (false, cs)

/-- The documents of the Messages container belonging to one session
(the filter `WHERE c.sessionId = @session_id AND c.type = "message"`,
written with single quotes in the SQL; every document in this container
has the message type). -/
def sessionMessages (cs : CosmosState) (sessionId : String) : List MessageDoc :=
  cs.messages.filter (fun m => m.sessionId == sessionId)

/-- `ORDER BY c.createdAt ASC`. -/
def msgLe (a b : MessageDoc) : Prop := a.createdAt ≤ b.createdAt

instance : DecidableRel msgLe := fun a b => inferInstanceAs (Decidable (a.createdAt ≤ b.createdAt))

instance : IsTotal MessageDoc msgLe := ⟨fun a b => Nat.le_total a.createdAt b.createdAt⟩

instance : IsTrans MessageDoc msgLe := ⟨fun _ _ _ h1 h2 => Nat.le_trans h1 h2⟩

/-- `ORDER BY c.createdAt DESC`. -/
def msgGe (a b : MessageDoc) : Prop := b.createdAt ≤ a.createdAt

instance : DecidableRel msgGe := fun a b => inferInstanceAs (Decidable (b.createdAt ≤ a.createdAt))

/-- `CosmosDBService.get_session_messages`: all messages of the session,
ordered by `createdAt` ascending. -/
def getSessionMessages (cs : CosmosState) (sessionId : String) : List MessageDoc :=
  List.insertionSort msgLe (sessionMessages cs sessionId)

/-- `CosmosDBService._get_message_count`: `SELECT VALUE COUNT(1)` over the
messages of the session. -/
def getMessageCount (cs : CosmosState) (sessionId : String) : Nat :=
  (sessionMessages cs sessionId).length

/-- `CosmosDBService._get_last_message`: `SELECT TOP 1 c.content ... ORDER BY
c.createdAt DESC`, then `content[:100]`. -/
def getLastMessage (cs : CosmosState) (sessionId : String) : Option String :=
  match List.insertionSort msgGe (sessionMessages cs sessionId) with
  | [] => none
  | m :: _ => some (pySlice m.content 100)

/-- `ConversationSummary` (`chat_models.py`). -/
structure Summary where
  id : String
  conversation_id : String
  title : String
  last_message : Option String
  message_count : Nat
  created_at : Nat
  updated_at : Nat
  is_active : Bool
  deriving Repr, DecidableEq

/-- Python truthiness of the optional `agent_id` filter (`if agent_id:`):
`None` and `""` both disable the filter. -/
def agentFilterActive (agentId : Option String) : Bool :=
  match agentId with
  | none => false
  | some a => !(a == "")

/-- The `WHERE` clause of `get_user_conversations`:
owner, document type and `s.is_active = true`
plus `s.agentId = @agent_id` when the filter is active. -/
def sessionQualifies (userId : String) (agentId : Option String) (s : SessionDoc) : Bool :=
  s.userId == userId && s.type == "session" && s.is_active &&
    (if agentFilterActive agentId then s.agentId == agentId else true)

/-- `ORDER BY s.lastActiveAt DESC`. -/
def sessGe (a b : SessionDoc) : Prop := b.lastActiveAt ≤ a.lastActiveAt

instance : DecidableRel sessGe := fun a b => inferInstanceAs (Decidable (b.lastActiveAt ≤ a.lastActiveAt))

instance : IsTotal SessionDoc sessGe := ⟨fun a b => Nat.le_total b.lastActiveAt a.lastActiveAt⟩

instance : IsTrans SessionDoc sessGe := ⟨fun _ _ _ h1 h2 => Nat.le_trans h2 h1⟩

/-- The summary `get_user_conversations` builds for one session document:
`message_count` and `last_message` are read-time aggregates over the Messages
container. -/
def mkCosmosSummary (cs : CosmosState) (s : SessionDoc) : Summary :=
  { id := s.id, conversation_id := s.conversation_id.getD s.id, title := s.title,
    last_message := getLastMessage cs s.id, message_count := getMessageCount cs s.id,
    created_at := s.createdAt, updated_at := s.lastActiveAt, is_active := s.is_active }

/-- `CosmosDBService.get_user_conversations`: filter by owner / type /
active / optional agent, order by `lastActiveAt` descending, truncate to
`limit` (`OFFSET 0 LIMIT @limit`), and build the summaries. -/
def getUserConversations (cs : CosmosState) (userId : String) (limit : Nat)
    (agentId : Option String) : List Summary :=
  ((List.insertionSort sessGe (cs.sessions.filter (sessionQualifies userId agentId))).take
      limit).map (mkCosmosSummary cs)

/-- `CosmosDBService.create_session` (its declared parameters are listed in
`createSessionParamNames` below).  Inserts a fresh `type = "session"`
document. -/
def createSession (cs : CosmosState) (userId userName copilotConversationId : String)
    (title : Option String) (agentId : Option String) : SessionDoc × CosmosState :=
  let s : SessionDoc :=
    { id := "sess_" ++ toString cs.now, type := "session", userId := userId,
      user_name := userName, title := title.getD "New Conversation", agentId := agentId,
      conversation_id := some copilotConversationId, createdAt := cs.now,
      lastActiveAt := cs.now, is_active := true }
  (s, { cs with sessions := cs.sessions ++ [s], now := cs.now + 1 })

/-! ### ConversationService (`conversation_service.py`) -/

/-- `ChatConversation` as held in the in-memory fallback store. -/
structure Conversation where
  id : String
  conversation_id : String
  user_id : String
  user_name : String
  title : String
  messages : List MessageDoc
  created_at : Nat
  updated_at : Nat
  agent_id : Option String
  is_active : Bool
  deriving Repr, DecidableEq

/-- `ConversationService` state: the optional durable store, the
`_in_memory_store` dictionary (association list keyed by conversation id,
in insertion order like a Python dict) and a logical
clock of the fallback path for `datetime.utcnow()` / `uuid`. -/
structure ConvServiceState where
  cosmos : Option CosmosState
  memory : List (String × Conversation)
  clock : Nat
  deriving Repr, DecidableEq

/-- `self._in_memory_store.get(conversation_id)`. -/
def lookupConv (mem : List (String × Conversation)) (cid : String) : Option Conversation :=
  (mem.find? (fun p => p.1 == cid)).map (fun p => p.2)

/-- In-place mutation of the dictionary entry for `cid`. -/
def updateConv (mem : List (String × Conversation)) (cid : String)
    (f : Conversation → Conversation) : List (String × Conversation) :=
  mem.map (fun p => if p.1 == cid then (p.1, f p.2) else p)

/-- A dynamically-typed Python return value, to record faithfully what
`ConversationService.add_message` hands back on each path. -/
inductive PyVal where
  | none
  | bool (b : Bool)
  | str (s : String)
  deriving Repr, DecidableEq

/-- The in-memory fallback block of `ConversationService.add_message`.
Constructing the message calls `MessageRole(role)`, which raises for an
invalid role — and in this block the exception is not caught, so the model
returns `Except.error`.  A missing or foreign conversation returns `None`. -/
def fallbackAddMessage (st : ConvServiceState) (conversationId userId content role : String)
    (attachments : List String) : Except String (PyVal × ConvServiceState) :=
  match lookupConv st.memory conversationId with
  | some conv =>
    if conv.user_id == userId then
      if validRoles.contains role then
        let mid := "msg_" ++ toString st.clock
        let msg : MessageDoc :=
          { id := mid, sessionId := conversationId, role := role, content := content,
            createdAt := st.clock, attachments := attachments, feedback := none }
        let conv1 := { conv with messages := conv.messages ++ [msg], updated_at := st.clock }
        Except.ok (PyVal.str mid,
          { st with memory := updateConv st.memory conversationId (fun _ => conv1),
                    clock := st.clock + 1 })
      else Except.error "ValueError: invalid MessageRole"
    else Except.ok (PyVal.none, st)
  | none => Except.ok (PyVal.none, st)

/-- `ConversationService.add_message`.  With a durable store configured it
calls `add_message_to_session`, binds the `bool` result to
`created_message_id`, and — when that result is truthy — returns it as-is;
a falsy result (or an exception, which `add_message_to_session` does not
let escape) falls through to the in-memory block. -/
def convAddMessage (st : ConvServiceState) (conversationId userId content role : String)
    (attachments : List String) : Except String (PyVal × ConvServiceState) :=
  match st.cosmos with
  | some cs =>
    let r := addMessageToSession cs conversationId userId content role attachments
    let st1 : ConvServiceState := { st with cosmos := some r.2 }
    if r.1 then Except.ok (PyVal.bool true, st1)
    else fallbackAddMessage st1 conversationId userId content role attachments
  | none => fallbackAddMessage st conversationId userId content role attachments

/-- The fallback block of `get_conversation` / `get_conversation_messages`:
the stored message list of the conversation, for the owner only. -/
def fallbackGetMessages (st : ConvServiceState) (conversationId userId : String) :
    List MessageDoc :=
  match lookupConv st.memory conversationId with
  | some conv => if conv.user_id == userId then conv.messages else []
  | none => []

/-- The summary built by the fallback block of
`ConversationService.get_user_conversations`:
`last_message = conv.messages[-1].content if conv.messages else None`
(note: the full content, no truncation). -/
def mkFallbackSummary (conv : Conversation) : Summary :=
  { id := conv.id, conversation_id := conv.conversation_id, title := conv.title,
    last_message := conv.messages.getLast?.map (fun m => m.content),
    message_count := conv.messages.length, created_at := conv.created_at,
    updated_at := conv.updated_at, is_active := conv.is_active }

/-- `sorted(..., key=lambda x: x.updated_at, reverse=True)` — a stable
descending sort. -/
def convGe (a b : Conversation) : Prop := b.updated_at ≤ a.updated_at

instance : DecidableRel convGe := fun a b => inferInstanceAs (Decidable (b.updated_at ≤ a.updated_at))

instance : IsTotal Conversation convGe := ⟨fun a b => Nat.le_total b.updated_at a.updated_at⟩

instance : IsTrans Conversation convGe := ⟨fun _ _ _ h1 h2 => Nat.le_trans h2 h1⟩

/-- The fallback block of `ConversationService.get_user_conversations`:
filter the dictionary values by owner and `is_active`, optionally by
`agent_id` (Python truthiness again), sort by `updated_at` descending,
truncate to `limit`, summarise. -/
def fallbackGetUserConversations (st : ConvServiceState) (userId : String) (limit : Nat)
    (agentId : Option String) : List Summary :=
  let convs := (st.memory.map (fun p => p.2)).filter
    (fun c => c.user_id == userId && c.is_active)
  let convs :=
    if agentFilterActive agentId then convs.filter (fun c => c.agent_id == agentId)
    else convs
  ((List.insertionSort convGe convs).take limit).map mkFallbackSummary

/-! #### `create_conversation` and the durable-branch keyword mismatch -/

/-- Parameter names accepted by `CosmosDBService.create_session`
(`cosmos_service.py`, signature of `create_session`). -/
def createSessionParamNames : List String :=
  ["user_id", "user_name", "copilot_conversation_id", "title", "metadata",
   "tenant_id", "model", "agent_id"]

/-- Keyword arguments `ConversationService.create_conversation` passes in its
call to `create_session` (`conversation_service.py`). -/
def createConversationCallKeywords : List String :=
  ["user_id", "user_name", "copilot_conversation_id", "title", "metadata",
   "agent_id", "session_data"]

/-- Python accepts a keyword call iff every keyword names a declared
parameter; otherwise the call raises `TypeError` before the body of the
callee runs. -/
def createSessionCallAccepted : Bool :=
  createConversationCallKeywords.all (fun k => createSessionParamNames.contains k)

/-- The in-memory fallback block of `create_conversation`: a fresh
id starting with `conv_`, placeholder title if none given, stored in the
dictionary. -/
def fallbackCreateConversation (st : ConvServiceState)
    (userId userName agentConversationId : String) (title : Option String)
    (agentId : Option String) : Conversation × ConvServiceState :=
  let cid := "conv_" ++ toString st.clock
  let conv : Conversation :=
    { id := cid, conversation_id := agentConversationId, user_id := userId,
      user_name := userName, title := title.getD "New Conversation", messages := [],
      created_at := st.clock, updated_at := st.clock, agent_id := agentId,
      is_active := true }
  (conv, { st with memory := st.memory ++ [(cid, conv)], clock := st.clock + 1 })

/-- The `ChatConversation` the durable branch of `create_conversation` would
build from the created session. -/
def convOfSession (s : SessionDoc) (agentConversationId userId userName : String)
    (agentId : Option String) : Conversation :=
  { id := s.id, conversation_id := s.conversation_id.getD agentConversationId,
    user_id := userId, user_name := userName, title := s.title, messages := [],
    created_at := s.createdAt, updated_at := s.lastActiveAt, agent_id := agentId,
    is_active := s.is_active }

/-- `ConversationService.create_conversation`.  The durable branch first has
to bind the keyword arguments of its `create_session` call; an unexpected
keyword raises `TypeError` there, which the surrounding `except` swallows
before falling through to the in-memory block. -/
def createConversation (st : ConvServiceState) (userId userName agentConversationId : String)
    (title : Option String) (agentId : Option String) : Conversation × ConvServiceState :=
  match st.cosmos with
  | some cs =>
    if createSessionCallAccepted then
      let r := createSession cs userId userName agentConversationId title agentId
      (convOfSession r.1 agentConversationId userId userName agentId,
        { st with cosmos := some r.2 })
    else fallbackCreateConversation st userId userName agentConversationId title agentId
  | none => fallbackCreateConversation st userId userName agentConversationId title agentId

/-! #### `update_message_feedback` and the missing durable method -/

/-- The methods the class `CosmosDBService` defines (`cosmos_service.py`,
class body). -/
def cosmosServiceMethodNames : List String :=
  ["__init__", "initialize", "create_session", "get_user_conversations",
   "_get_message_count", "_get_last_message", "get_conversation",
   "get_session_messages", "add_message_to_session", "add_message_to_conversation",
   "_update_session_activity", "delete_conversation", "delete_session_messages",
   "health_check", "close"]

/-- The values the `MessageFeedback` enum accepts; `MessageFeedback(s)`
raises `ValueError` for any other string. -/
def validFeedback : List String := ["positive", "negative"]

/-- `MessageFeedback(feedback) if feedback else None`: a falsy argument
(`None` or `""`) clears the field; a valid enum value is stored; any other
string raises `ValueError`. -/
def coerceFeedback (feedback : Option String) : Except String (Option String) :=
  match feedback with
  | none => Except.ok none
  | some s =>
    if s == "" then Except.ok none
    else if validFeedback.contains s then Except.ok (some s)
    else Except.error "ValueError: invalid MessageFeedback"

/-- Set the first message with the given id to the already-coerced feedback
value `v` and stop; `none` when no message matches. -/
def setFirstFeedbackValue (messageId : String) (v : Option String) :
    List MessageDoc → Option (List MessageDoc)
  | [] => Option.none
  | m :: ms =>
    if m.id == messageId then some ({ m with feedback := v } :: ms)
    else (setFirstFeedbackValue messageId v ms).map (fun ms1 => m :: ms1)

/-- The fallback loop of `update_message_feedback`: at the first message with
the given id, evaluate `MessageFeedback(feedback) if feedback else None` —
raising `ValueError` there for a string outside the enum — store the value
and stop; `Except.ok none` when no message matches (the coercion is never
reached then). -/
def setFeedbackFirst (messageId : String) (feedback : Option String) :
    List MessageDoc → Except String (Option (List MessageDoc))
  | [] => Except.ok Option.none
  | m :: ms =>
    if m.id == messageId then
      match coerceFeedback feedback with
      | Except.error e => Except.error e
      | Except.ok v => Except.ok (some ({ m with feedback := v } :: ms))
    else
      match setFeedbackFirst messageId feedback ms with
      | Except.error e => Except.error e
      | Except.ok o => Except.ok (o.map (fun ms1 => m :: ms1))

/-- The in-memory fallback block of `update_message_feedback`: no owner
check; `True` exactly when the dictionary holds the session and it contains
a message with the given id; a `ValueError` from the enum coercion is not
caught in this block and propagates to the caller. -/
def fallbackUpdateFeedback (st : ConvServiceState) (sessionId messageId : String)
    (feedback : Option String) : Except String (Bool × ConvServiceState) :=
  match lookupConv st.memory sessionId with
  | some conv =>
    match setFeedbackFirst messageId feedback conv.messages with
    | Except.error e => Except.error e
    | Except.ok (some ms) =>
      Except.ok (true, { st with
        memory := updateConv st.memory sessionId (fun c => { c with messages := ms }) })
    | Except.ok Option.none => Except.ok (false, st)
  | none => Except.ok (false, st)

/-- `ConversationService.update_message_feedback`.  The durable branch calls
`self.cosmos_service.update_message_feedback(...)`; whether that attribute
exists is decided against `cosmosServiceMethodNames`.  When it does not, the
`AttributeError` is caught and logged and control falls to the in-memory
block (whose own `ValueError` is not caught).  `durableUpdate` stands for
whatever a durable implementation would do — the theorem for C10 shows the
result never depends on it. -/
def updateMessageFeedback (durableUpdate : CosmosState → Bool × CosmosState)
    (st : ConvServiceState) (sessionId messageId : String) (feedback : Option String) :
    Except String (Bool × ConvServiceState) :=
  match st.cosmos with
  | some cs =>
    if cosmosServiceMethodNames.contains "update_message_feedback" then
      let r := durableUpdate cs
      if r.1 then Except.ok (true, { st with cosmos := some r.2 })
      else fallbackUpdateFeedback { st with cosmos := some r.2 } sessionId messageId feedback
    else fallbackUpdateFeedback st sessionId messageId feedback
  | none => fallbackUpdateFeedback st sessionId messageId feedback

/-! ### AI Foundry service (`ai_foundry_service.py`) -/

/-- What one MSAL `acquire_token_on_behalf_of` attempt can produce:
a result dict holding `access_token`; a structured error dict (no
`access_token`), which the code turns into a `ValueError` that is explicitly
re-raised without retry; or any other exception (network/transport),
treated as transient. -/
inductive ExchangeAttempt where
  | tok (t : String)
  | rejected (e : String)
  | transientErr (e : String)
  deriving Repr, DecidableEq

/-- How `_get_azure_ai_token` terminates. -/
inductive ExchangeOutcome where
  | ok (t : String)
  | authError (e : String)
  | exhausted (e : String)
  deriving Repr, DecidableEq

/-- Observable trace of one `_get_azure_ai_token` call: its outcome, how many
attempts ran, the `time.sleep` calls in milliseconds, and how many times the
MSAL app was reconstructed. -/
structure ExchangeTrace where
  outcome : ExchangeOutcome
  attemptsMade : Nat
  sleepsMs : List Nat
  rebuilds : Nat
  deriving Repr, DecidableEq

/-- `max_retries = 3` in `_get_azure_ai_token`. -/
def maxRetries : Nat := 3

/-- The `for attempt in range(1, max_retries + 1)` loop of
`_get_azure_ai_token`; `oracle k` is what the identity provider does on
attempt `k`.  On a transient failure with attempts remaining it sleeps
`0.5 * attempt` seconds and rebuilds the MSAL client; after the last attempt
it re-raises the last transient error. -/
def exchangeLoop (oracle : Nat → ExchangeAttempt) :
    Nat → Nat → List Nat → Nat → ExchangeTrace
  | attempt, 0, sleeps, rebuilds =>
    { outcome := ExchangeOutcome.exhausted "", attemptsMade := attempt - 1,
      sleepsMs := sleeps, rebuilds := rebuilds }
  | attempt, fuel + 1, sleeps, rebuilds =>
    match oracle attempt with
    | ExchangeAttempt.tok t =>
      { outcome := ExchangeOutcome.ok t, attemptsMade := attempt,
        sleepsMs := sleeps, rebuilds := rebuilds }
    | ExchangeAttempt.rejected e =>
      { outcome := ExchangeOutcome.authError e, attemptsMade := attempt,
        sleepsMs := sleeps, rebuilds := rebuilds }
    | ExchangeAttempt.transientErr e =>
      if fuel = 0 then
        { outcome := ExchangeOutcome.exhausted e, attemptsMade := attempt,
          sleepsMs := sleeps, rebuilds := rebuilds }
      else exchangeLoop oracle (attempt + 1) fuel (sleeps ++ [500 * attempt]) (rebuilds + 1)

/-- `AIFoundryService._get_azure_ai_token` as a trace over the attempt
oracle. -/
def getAzureAiToken (oracle : Nat → ExchangeAttempt) : ExchangeTrace :=
  exchangeLoop oracle 1 maxRetries [] 0

/-! #### Run reconciler (`_ensure_no_active_runs`) -/

/-- A remote run as listed on a thread. -/
structure AgentRun where
  id : String
  status : String
  deriving Repr, DecidableEq

/-- `terminal_statuses` in `_ensure_no_active_runs`. -/
def terminalStatuses : List String := ["completed", "cancelled", "failed", "expired"]

/-- The statuses for which a cancel request is issued
(`run.status in ("queued", "in_progress", "requires_action")`). -/
def cancellableStatuses : List String := ["queued", "in_progress", "requires_action"]

/-- `r.status not in terminal_statuses`. -/
def isActiveRun (r : AgentRun) : Bool := !(terminalStatuses.contains r.status)

/-- The active (non-terminal) runs of a listing. -/
def activeRunsOf (runs : List AgentRun) : List AgentRun := runs.filter isActiveRun

/-- Observable result of one `_ensure_no_active_runs` call (the Python
function returns `None`; this records what it did).  The function never
raises: on timeout it logs a warning and falls off the end. -/
structure ReconcileResult where
  cancelsIssued : List String
  polls : Nat
  timedOut : Bool
  deriving Repr, DecidableEq

/-- The `while elapsed < max_wait_seconds` poll loop: sleep 0.5 s, bump
`elapsed`, re-list the runs (`listRuns k` is the k-th re-listing), stop as
soon as none is active.  `fuel` is the remaining number of half-second
steps. -/
def pollForTerminal (listRuns : Nat → List AgentRun) : Nat → Nat → Nat × Bool
  | k, 0 => (k - 1, true)
  | k, fuel + 1 =>
    if (activeRunsOf (listRuns k)).isEmpty then (k, false)
    else pollForTerminal listRuns (k + 1) fuel

/-- `AIFoundryService._ensure_no_active_runs` (default
`max_wait_seconds = 15`).  `listRuns 0` is the initial listing; `cancelFails`
says which individual cancel requests the backend rejects — such failures are
only logged, so they do not influence anything recorded here.  With no active
run it returns at once; otherwise it issues a cancel for every active run in
a cancellable status and then polls, at most `2 * maxWaitSeconds` times. -/
def ensureNoActiveRuns (listRuns : Nat → List AgentRun) (cancelFails : String → Bool)
    (maxWaitSeconds : Nat) : ReconcileResult :=
  let active := activeRunsOf (listRuns 0)
  if active.isEmpty then { cancelsIssued := [], polls := 0, timedOut := false }
  else
    let cancels := (active.filter (fun r => cancellableStatuses.contains r.status)).map
      (fun r => r.id)
    let pt := pollForTerminal listRuns 1 (2 * maxWaitSeconds)
    { cancelsIssued := cancels, polls := pt.1, timedOut := pt.2 }

/-! #### History replay (`replay_history`) -/

/-- One element of the `messages: List[Dict[str, str]]` argument; either key
may be absent. -/
structure TurnDict where
  role : Option String
  content : Option String
  deriving Repr, DecidableEq

/-- `msg.get("role", "user")`. -/
def turnRole (t : TurnDict) : String := t.role.getD "user"

/-- `msg.get("content", "").strip()`. -/
def turnContent (t : TurnDict) : String := pyStrip (t.content.getD "")

/-- The negation of the skip condition
`if not content or role not in ("user", "assistant"): continue`. -/
def turnReplayable (t : TurnDict) : Bool :=
  !(turnContent t == "") && (turnRole t == "user" || turnRole t == "assistant")

/-- The agent-API requests a call can issue: posting a message to the thread
or creating a run (generation). -/
inductive AgentApiCall where
  | createMessage (role content : String)
  | createRun (agentId : String)
  deriving Repr, DecidableEq

/-- Whether a request is a run creation. -/
def isCreateRun (c : AgentApiCall) : Bool :=
  match c with
  | AgentApiCall.createRun _ => true
  | _ => false

/-- The `for msg in messages` loop of `replay_history`: the sequence of
API requests issued, and the final `replayed` counter. -/
def replayLoop : List TurnDict → List AgentApiCall × Nat
  | [] => ([], 0)
  | t :: ts =>
    if turnReplayable t then
      let rest := replayLoop ts
      (AgentApiCall.createMessage (turnRole t) (turnContent t) :: rest.1, rest.2 + 1)
    else replayLoop ts

/-- `AIFoundryService.replay_history` over the prior turns (thread id and
token elided: they do not affect which requests are issued). -/
def replayHistory (turns : List TurnDict) : List AgentApiCall × Nat :=
  replayLoop turns

/-! ### Sequences of appends, for the round-trip claim -/

/-- The caller-chosen part of one `add_message` call. -/
structure AppendReq where
  content : String
  role : String
  attachments : List String
  deriving Repr, DecidableEq

/-- Run a sequence of `add_message_to_session` calls against the durable
store. -/
def cosmosAppendAll (sessionId userId : String) : CosmosState → List AppendReq → CosmosState
  | cs, [] => cs
  | cs, r :: rs =>
    cosmosAppendAll sessionId userId
      (addMessageToSession cs sessionId userId r.content r.role r.attachments).2 rs

/-- Run a sequence of fallback `add_message` calls against the in-memory
store (the state is kept unchanged on the unreachable invalid-role error). -/
def fallbackAppendAll (conversationId userId : String) :
    ConvServiceState → List AppendReq → ConvServiceState
  | st, [] => st
  | st, r :: rs =>
    match fallbackAddMessage st conversationId userId r.content r.role r.attachments with
    | Except.ok p => fallbackAppendAll conversationId userId p.2 rs
    | Except.error _ => fallbackAppendAll conversationId userId st rs

/-- The message documents a sequence of appends at clock `n` produces. -/
def mkMsgs (sessionId : String) : Nat → List AppendReq → List MessageDoc
  | _, [] => []
  | n, r :: rs =>
    { id := "msg_" ++ toString n, sessionId := sessionId, role := r.role,
      content := r.content, createdAt := n, attachments := r.attachments,
      feedback := none } :: mkMsgs sessionId (n + 1) rs

/-- The combined membership condition of the two filter passes of the
fallback listing (owner and active, plus the agent filter when it is active). -/
def convQualifies (userId : String) (agentId : Option String) (c : Conversation) : Bool :=
  c.user_id == userId && c.is_active &&
    (if agentFilterActive agentId then c.agent_id == agentId else true)

/-! ### Concrete fixtures used by witnesses and counterexamples -/

/-- A session owned by `"u1"` with the default placeholder title. -/
def demoSession : SessionDoc :=
  { id := "sess_1", type := "session", userId := "u1", user_name := "User One",
    title := "New Conversation", agentId := none, conversation_id := some "thr_1",
    createdAt := 0, lastActiveAt := 0, is_active := true }

/-- A session owned by another user. -/
def demoOther : SessionDoc :=
  { id := "sess_2", type := "session", userId := "u2", user_name := "User Two",
    title := "Other", agentId := none, conversation_id := some "thr_2",
    createdAt := 0, lastActiveAt := 5, is_active := true }

/-- A soft-deleted session owned by `"u1"`. -/
def demoDeleted : SessionDoc :=
  { id := "sess_3", type := "session", userId := "u1", user_name := "User One",
    title := "Old", agentId := none, conversation_id := some "thr_3",
    createdAt := 0, lastActiveAt := 3, is_active := false }

/-- A durable store holding the three sessions above and no messages. -/
def demoCs : CosmosState := { sessions := [demoSession, demoOther, demoDeleted], messages := [], now := 1 }

/-- A fallback conversation owned by `"u1"` with no messages yet. -/
def demoConv : Conversation :=
  { id := "conv_0", conversation_id := "thr_1", user_id := "u1", user_name := "User One",
    title := "New Conversation", messages := [], created_at := 0, updated_at := 0,
    agent_id := none, is_active := true }

/-- A fallback-only service state holding `demoConv`. -/
def demoMemSt : ConvServiceState := { cosmos := none, memory := [("conv_0", demoConv)], clock := 0 }

/-- A service state with the durable store configured (for the durable-path
claims). -/
def demoDurableSt : ConvServiceState := { cosmos := some demoCs, memory := [], clock := 0 }

/-- Two appends: a user turn with one attachment, then an assistant turn. -/
def demoReqs : List AppendReq :=
  [{ content := "hello", role := "user", attachments := ["att1"] },
   { content := "hi there, how can I help?", role := "assistant", attachments := [] }]

/-- The first user message of the title scenario in the spec (41 characters). -/
def scenarioQ : String := "What were last month\x27s escalation rates?"

/-- The durable state after the first user message of the scenario. -/
def scenarioAfter1 : CosmosState :=
  (addMessageToSession demoCs "sess_1" "u1" scenarioQ "user" []).2

/-- The durable state after the second user message of the scenario. -/
def scenarioAfter2 : CosmosState :=
  (addMessageToSession scenarioAfter1 "sess_1" "u1" "And the month before?" "user" []).2

/-- A 101-character content, one character over the preview truncation
limit. -/
def longContent : String := String.mk (List.replicate 101 'a')

/-- A fallback conversation whose last (only) message is `longContent`. -/
def overlongConv : Conversation :=
  { id := "conv_7", conversation_id := "thr_7", user_id := "u1", user_name := "User One",
    title := "T",
    messages := [{ id := "m1", sessionId := "conv_7", role := "assistant",
                   content := longContent, createdAt := 0, attachments := [],
                   feedback := none }],
    created_at := 0, updated_at := 1, agent_id := none, is_active := true }

/-- The fallback-only service state holding `overlongConv`. -/
def overlongSt : ConvServiceState := { cosmos := none, memory := [("conv_7", overlongConv)], clock := 2 }

/-- The durable store holding the same 101-character message under
`demoSession`. -/
def overlongCs : CosmosState :=
  { sessions := [demoSession],
    messages := [{ id := "m1", sessionId := "sess_1", role := "assistant",
                   content := longContent, createdAt := 0, attachments := [],
                   feedback := none }],
    now := 1 }

/-- A fallback conversation with one message, for the feedback claim. -/
def feedbackConv : Conversation :=
  { id := "conv_9", conversation_id := "thr_9", user_id := "u1", user_name := "User One",
    title := "T",
    messages := [{ id := "m9", sessionId := "conv_9", role := "assistant",
                   content := "answer", createdAt := 0, attachments := [],
                   feedback := none }],
    created_at := 0, updated_at := 1, agent_id := none, is_active := true }

/-- Service state for the feedback witness: durable store configured and the
fallback dictionary holding `feedbackConv`. -/
def feedbackSt : ConvServiceState :=
  { cosmos := some demoCs, memory := [("conv_9", feedbackConv)], clock := 2 }

/-! ### Helper lemmas -/

theorem find?_isSome_map_of_pred {α : Type} (p : α → Bool) (f : α → α)
    (h : ∀ x, p (f x) = p x) :
    ∀ l : List α, ((l.map f).find? p).isSome = (l.find? p).isSome := by
  intro l
  induction l with
  | nil => rfl
  | cons x xs ih =>
    cases hx : p x with
    | true =>
      rw [List.map_cons, List.find?_cons_of_pos _ (by rw [h x]; exact hx),
        List.find?_cons_of_pos _ hx]
      rfl
    | false =>
      rw [List.map_cons, List.find?_cons_of_neg _ (by simp [h x, hx]),
        List.find?_cons_of_neg _ (by simp [hx]), ih]

theorem readSession_updateSessionActivity (cs : CosmosState)
    (sid uid c role sid' uid' : String) :
    (readSession (updateSessionActivity cs sid uid c role) sid' uid').isSome
      = (readSession cs sid' uid').isSome := by
  unfold readSession updateSessionActivity
  exact find?_isSome_map_of_pred _ _
    (fun s => by cases hc : s.id == sid && s.userId == uid <;> simp [hc, touchSession])
    cs.sessions

theorem addMessageToSession_eq_of_found (cs : CosmosState) (sid uid c role : String)
    (att : List String) (s : SessionDoc) (hs : readSession cs sid uid = some s)
    (hr : validRoles.contains role = true) :
    addMessageToSession cs sid uid c role att =
      (true, updateSessionActivity
        { cs with
          messages := cs.messages ++
            [{ id := freshMessageId cs, sessionId := sid, role := role, content := c,
               createdAt := cs.now, attachments := att, feedback := none }],
          now := cs.now + 1 } sid uid c role) := by
  unfold addMessageToSession
  rw [hs]
  have hr' : role ∈ validRoles := by simpa using hr
  simp [hr, hr']

theorem addMessageToSession_messages (cs : CosmosState) (sid uid c role : String)
    (att : List String) (s : SessionDoc) (hs : readSession cs sid uid = some s)
    (hr : validRoles.contains role = true) :
    (addMessageToSession cs sid uid c role att).2.messages =
      cs.messages ++
        [{ id := freshMessageId cs, sessionId := sid, role := role, content := c,
           createdAt := cs.now, attachments := att, feedback := none }] := by
  rw [addMessageToSession_eq_of_found cs sid uid c role att s hs hr]
  rfl

theorem addMessageToSession_now (cs : CosmosState) (sid uid c role : String)
    (att : List String) (s : SessionDoc) (hs : readSession cs sid uid = some s)
    (hr : validRoles.contains role = true) :
    (addMessageToSession cs sid uid c role att).2.now = cs.now + 1 := by
  rw [addMessageToSession_eq_of_found cs sid uid c role att s hs hr]
  rfl

theorem addMessageToSession_readSession (cs : CosmosState) (sid uid c role : String)
    (att : List String) (s : SessionDoc) (hs : readSession cs sid uid = some s)
    (hr : validRoles.contains role = true) (sid' uid' : String) :
    (readSession (addMessageToSession cs sid uid c role att).2 sid' uid').isSome
      = (readSession cs sid' uid').isSome := by
  rw [addMessageToSession_eq_of_found cs sid uid c role att s hs hr]
  rw [readSession_updateSessionActivity]
  rfl

theorem cosmosAppendAll_messages (sid uid : String) (reqs : List AppendReq) :
    ∀ cs : CosmosState, (readSession cs sid uid).isSome = true →
      (∀ r ∈ reqs, validRoles.contains r.role = true) →
      (cosmosAppendAll sid uid cs reqs).messages = cs.messages ++ mkMsgs sid cs.now reqs := by
  induction reqs with
  | nil => intro cs _ _; simp [cosmosAppendAll, mkMsgs]
  | cons r rs ih =>
    intro cs hs hv
    obtain ⟨s, hfind⟩ := Option.isSome_iff_exists.1 hs
    have hr : validRoles.contains r.role = true := hv r (List.mem_cons_self r rs)
    rw [cosmosAppendAll]
    have h1 : (readSession (addMessageToSession cs sid uid r.content r.role r.attachments).2
        sid uid).isSome = true := by
      rw [addMessageToSession_readSession cs sid uid r.content r.role r.attachments s hfind hr]
      exact hs
    rw [ih _ h1 (fun x hx => hv x (List.mem_cons_of_mem _ hx))]
    rw [addMessageToSession_messages cs sid uid r.content r.role r.attachments s hfind hr]
    rw [addMessageToSession_now cs sid uid r.content r.role r.attachments s hfind hr]
    simp [mkMsgs, freshMessageId]

theorem mkMsgs_filter_self (sid : String) :
    ∀ (n : Nat) (reqs : List AppendReq),
      (mkMsgs sid n reqs).filter (fun m => m.sessionId == sid) = mkMsgs sid n reqs := by
  intro n reqs
  induction reqs generalizing n with
  | nil => rfl
  | cons r rs ih => simp [mkMsgs, List.filter_cons, ih]

theorem mkMsgs_le_createdAt (sid : String) :
    ∀ (reqs : List AppendReq) (n : Nat), ∀ m ∈ mkMsgs sid n reqs, n ≤ m.createdAt := by
  intro reqs
  induction reqs with
  | nil => intro n m hm; simp [mkMsgs] at hm
  | cons r rs ih =>
    intro n m hm
    rw [mkMsgs] at hm
    rcases List.mem_cons.1 hm with h | h
    · subst h; exact Nat.le_refl n
    · exact Nat.le_trans (Nat.le_succ n) (ih (n + 1) m h)

theorem mkMsgs_sorted (sid : String) :
    ∀ (reqs : List AppendReq) (n : Nat), List.Sorted msgLe (mkMsgs sid n reqs) := by
  intro reqs
  induction reqs with
  | nil => intro n; exact List.sorted_nil
  | cons r rs ih =>
    intro n
    rw [mkMsgs]
    exact List.sorted_cons.2
      ⟨fun m hm => Nat.le_trans (Nat.le_succ n) (mkMsgs_le_createdAt sid rs (n + 1) m hm),
       ih (n + 1)⟩

theorem mkMsgs_pairwise_lt (sid : String) :
    ∀ (reqs : List AppendReq) (n : Nat),
      (mkMsgs sid n reqs).Pairwise (fun a b => a.createdAt < b.createdAt) := by
  intro reqs
  induction reqs with
  | nil => intro n; exact List.Pairwise.nil
  | cons r rs ih =>
    intro n
    rw [mkMsgs]
    exact List.pairwise_cons.2
      ⟨fun m hm => Nat.lt_of_lt_of_le (Nat.lt_succ_self n) (mkMsgs_le_createdAt sid rs (n + 1) m hm),
       ih (n + 1)⟩

theorem mkMsgs_proj (sid : String) :
    ∀ (reqs : List AppendReq) (n : Nat),
      (mkMsgs sid n reqs).map (fun m => (m.content, m.role, m.attachments))
        = reqs.map (fun r => (r.content, r.role, r.attachments)) := by
  intro reqs
  induction reqs with
  | nil => intro n; rfl
  | cons r rs ih => intro n; simp [mkMsgs, ih]

theorem mkMsgs_map_content (sid : String) :
    ∀ (reqs : List AppendReq) (n : Nat),
      (mkMsgs sid n reqs).map (fun m => m.content) = reqs.map (fun r => r.content) := by
  intro reqs
  induction reqs with
  | nil => intro n; rfl
  | cons r rs ih => intro n; simp [mkMsgs, ih]

theorem mkMsgs_length (sid : String) :
    ∀ (reqs : List AppendReq) (n : Nat), (mkMsgs sid n reqs).length = reqs.length := by
  intro reqs
  induction reqs with
  | nil => intro n; rfl
  | cons r rs ih => intro n; simp [mkMsgs, ih]

theorem orderedInsert_append_of_not (x : MessageDoc) :
    ∀ l : List MessageDoc, (∀ y ∈ l, ¬ msgGe x y) →
      List.orderedInsert msgGe x l = l ++ [x] := by
  intro l
  induction l with
  | nil => intro _; rfl
  | cons y ys ih =>
    intro h
    rw [List.orderedInsert, if_neg (h y (List.mem_cons_self y ys)),
      ih (fun z hz => h z (List.mem_cons_of_mem _ hz))]
    rfl

theorem insertionSort_desc_of_pairwise_lt :
    ∀ l : List MessageDoc, l.Pairwise (fun a b => a.createdAt < b.createdAt) →
      List.insertionSort msgGe l = l.reverse := by
  intro l
  induction l with
  | nil => intro _; rfl
  | cons x xs ih =>
    intro h
    rw [List.insertionSort, ih (List.pairwise_cons.1 h).2]
    rw [orderedInsert_append_of_not x xs.reverse (fun y hy => by
      have hlt : x.createdAt < y.createdAt :=
        (List.pairwise_cons.1 h).1 y (List.mem_reverse.1 hy)
      exact fun hge => Nat.lt_irrefl _ (Nat.lt_of_lt_of_le hlt hge))]
    simp

theorem getLastMessage_eq_head? (cs : CosmosState) (sid : String) :
    getLastMessage cs sid =
      (List.insertionSort msgGe (sessionMessages cs sid)).head?.map
        (fun m => pySlice m.content 100) := by
  unfold getLastMessage
  cases List.insertionSort msgGe (sessionMessages cs sid) <;> rfl

theorem lookupConv_cons (a : String × Conversation) (l : List (String × Conversation))
    (cid : String) :
    lookupConv (a :: l) cid = if (a.1 == cid) = true then some a.2 else lookupConv l cid := by
  unfold lookupConv
  cases h : (a.1 == cid) with
  | true =>
    rw [@List.find?_cons_of_pos _ (fun p => p.1 == cid) a l h]
    simp
  | false =>
    rw [@List.find?_cons_of_neg _ (fun p => p.1 == cid) a l (by simp [h])]
    simp [h]

theorem lookupConv_updateConv (f : Conversation → Conversation) :
    ∀ (mem : List (String × Conversation)) (cid : String),
      lookupConv (updateConv mem cid f) cid = (lookupConv mem cid).map f := by
  intro mem cid
  induction mem with
  | nil => rfl
  | cons p rest ih =>
    have step : updateConv (p :: rest) cid f =
        (if (p.1 == cid) = true then (p.1, f p.2) else p) :: updateConv rest cid f := rfl
    rw [step, lookupConv_cons, lookupConv_cons]
    cases hk : (p.1 == cid) with
    | true => simp [beq_iff_eq.1 hk]
    | false =>
      have hne : ¬ p.1 = cid := by simpa using hk
      simp [hne, ih]

theorem setFirstFeedbackValue_isSome (mid : String) (v : Option String) :
    ∀ ms : List MessageDoc,
      (setFirstFeedbackValue mid v ms).isSome = ms.any (fun m => m.id == mid) := by
  intro ms
  induction ms with
  | nil => rfl
  | cons m rest ih =>
    cases hm : (m.id == mid) with
    | true => simp [setFirstFeedbackValue, hm]
    | false => simp [setFirstFeedbackValue, hm, ih]

theorem setFeedbackFirst_coerce_ok (mid : String) (fb : Option String) (v : Option String)
    (hc : coerceFeedback fb = Except.ok v) :
    ∀ ms : List MessageDoc,
      setFeedbackFirst mid fb ms = Except.ok (setFirstFeedbackValue mid v ms) := by
  intro ms
  induction ms with
  | nil => rfl
  | cons m rest ih =>
    cases hm : (m.id == mid) with
    | true => simp [setFeedbackFirst, setFirstFeedbackValue, hm, hc]
    | false => simp [setFeedbackFirst, setFirstFeedbackValue, hm, ih]

theorem setFeedbackFirst_coerce_error (mid : String) (fb : Option String) (e : String)
    (hc : coerceFeedback fb = Except.error e) :
    ∀ ms : List MessageDoc,
      setFeedbackFirst mid fb ms =
        if ms.any (fun m => m.id == mid) then Except.error e
        else Except.ok Option.none := by
  intro ms
  induction ms with
  | nil => rfl
  | cons m rest ih =>
    cases hm : (m.id == mid) with
    | true => simp [setFeedbackFirst, hm, hc]
    | false =>
      cases ha : rest.any (fun m => m.id == mid) with
      | true => simp [setFeedbackFirst, hm, hc, ih, ha]
      | false => simp [setFeedbackFirst, hm, hc, ih, ha]

theorem fallbackAppendAll_spec (cid uid : String) (reqs : List AppendReq) :
    ∀ (st : ConvServiceState) (conv : Conversation),
      lookupConv st.memory cid = some conv → (conv.user_id == uid) = true →
      (∀ r ∈ reqs, validRoles.contains r.role = true) →
      ∃ conv', lookupConv (fallbackAppendAll cid uid st reqs).memory cid = some conv' ∧
        conv'.user_id = conv.user_id ∧
        conv'.messages = conv.messages ++ mkMsgs cid st.clock reqs := by
  induction reqs with
  | nil =>
    intro st conv hl _ _
    exact ⟨conv, by simpa [fallbackAppendAll, mkMsgs] using hl, rfl, by simp [mkMsgs]⟩
  | cons r rs ih =>
    intro st conv hl hu hv
    have hr : validRoles.contains r.role = true := hv r (List.mem_cons_self r rs)
    have hstep : fallbackAddMessage st cid uid r.content r.role r.attachments =
        Except.ok (PyVal.str ("msg_" ++ toString st.clock),
          { st with
            memory := updateConv st.memory cid (fun _ =>
              { conv with
                messages := conv.messages ++
                  [{ id := "msg_" ++ toString st.clock, sessionId := cid, role := r.role,
                     content := r.content, createdAt := st.clock,
                     attachments := r.attachments, feedback := none }],
                updated_at := st.clock }),
            clock := st.clock + 1 }) := by
      unfold fallbackAddMessage
      rw [hl]
      have hr' : r.role ∈ validRoles := by simpa using hr
      simp [hu, hr, hr']
    have hloop : fallbackAppendAll cid uid st (r :: rs) =
        fallbackAppendAll cid uid
          { st with
            memory := updateConv st.memory cid (fun _ =>
              { conv with
                messages := conv.messages ++
                  [{ id := "msg_" ++ toString st.clock, sessionId := cid, role := r.role,
                     content := r.content, createdAt := st.clock,
                     attachments := r.attachments, feedback := none }],
                updated_at := st.clock }),
            clock := st.clock + 1 } rs := by
      rw [fallbackAppendAll, hstep]
    rw [hloop]
    have hl1 : lookupConv (updateConv st.memory cid (fun _ =>
        { conv with
          messages := conv.messages ++
            [{ id := "msg_" ++ toString st.clock, sessionId := cid, role := r.role,
               content := r.content, createdAt := st.clock,
               attachments := r.attachments, feedback := none }],
          updated_at := st.clock })) cid = some
        { conv with
          messages := conv.messages ++
            [{ id := "msg_" ++ toString st.clock, sessionId := cid, role := r.role,
               content := r.content, createdAt := st.clock,
               attachments := r.attachments, feedback := none }],
          updated_at := st.clock } := by
      rw [lookupConv_updateConv, hl]
      rfl
    obtain ⟨conv', h1, h2, h3⟩ := ih
      { st with
        memory := updateConv st.memory cid (fun _ =>
          { conv with
            messages := conv.messages ++
              [{ id := "msg_" ++ toString st.clock, sessionId := cid, role := r.role,
                 content := r.content, createdAt := st.clock,
                 attachments := r.attachments, feedback := none }],
            updated_at := st.clock }),
        clock := st.clock + 1 }
      { conv with
        messages := conv.messages ++
          [{ id := "msg_" ++ toString st.clock, sessionId := cid, role := r.role,
             content := r.content, createdAt := st.clock,
             attachments := r.attachments, feedback := none }],
        updated_at := st.clock }
      hl1 (by simpa using hu)
      (fun x hx => hv x (List.mem_cons_of_mem _ hx))
    refine ⟨conv', h1, h2, ?_⟩
    rw [h3]
    simp [mkMsgs]

theorem pollForTerminal_false (env : Nat → List AgentRun) :
    ∀ (fuel k : Nat), (pollForTerminal env k fuel).2 = false →
      k ≤ (pollForTerminal env k fuel).1 ∧
      (pollForTerminal env k fuel).1 < k + fuel ∧
      (activeRunsOf (env (pollForTerminal env k fuel).1)).isEmpty = true ∧
      ∀ j, k ≤ j → j < (pollForTerminal env k fuel).1 →
        (activeRunsOf (env j)).isEmpty = false := by
  intro fuel
  induction fuel with
  | zero => intro k h; simp [pollForTerminal] at h
  | succ f ih =>
    intro k h
    by_cases hE : (activeRunsOf (env k)).isEmpty = true
    · rw [pollForTerminal, if_pos hE] at h ⊢
      exact ⟨Nat.le_refl k, by omega, hE, fun j hj1 hj2 => by omega⟩
    · rw [pollForTerminal, if_neg hE] at h ⊢
      obtain ⟨h1, h2, h3, h4⟩ := ih (k + 1) h
      refine ⟨by omega, by omega, h3, fun j hj1 hj2 => ?_⟩
      rcases Nat.eq_or_lt_of_le hj1 with hj | hj
      · subst hj; simpa using hE
      · exact h4 j hj hj2

theorem pollForTerminal_true (env : Nat → List AgentRun) :
    ∀ (fuel k : Nat), (pollForTerminal env k fuel).2 = true →
      (pollForTerminal env k fuel).1 = k + fuel - 1 ∧
      ∀ j, k ≤ j → j < k + fuel → (activeRunsOf (env j)).isEmpty = false := by
  intro fuel
  induction fuel with
  | zero =>
    intro k _
    exact ⟨rfl, fun j hj1 hj2 => by omega⟩
  | succ f ih =>
    intro k h
    by_cases hE : (activeRunsOf (env k)).isEmpty = true
    · rw [pollForTerminal, if_pos hE] at h
      simp at h
    · rw [pollForTerminal, if_neg hE] at h ⊢
      obtain ⟨h1, h2⟩ := ih (k + 1) h
      refine ⟨by omega, fun j hj1 hj2 => ?_⟩
      rcases Nat.eq_or_lt_of_le hj1 with hj | hj
      · subst hj; simpa using hE
      · exact h2 j hj (by omega)

theorem exchangeLoop_attempts_le (oracle : Nat → ExchangeAttempt) :
    ∀ (fuel attempt : Nat) (sleeps : List Nat) (rb : Nat),
      (exchangeLoop oracle attempt fuel sleeps rb).attemptsMade ≤ attempt + fuel - 1 := by
  intro fuel
  induction fuel with
  | zero => intro attempt sleeps rb; simp [exchangeLoop]
  | succ f ih =>
    intro attempt sleeps rb
    rw [exchangeLoop]
    cases oracle attempt with
    | tok t => simp
    | rejected e => simp
    | transientErr e =>
      by_cases hf0 : f = 0
      · simp [hf0]
      · simp only [if_neg hf0]
        have hf1 : 1 ≤ f := Nat.pos_of_ne_zero hf0
        have := ih (attempt + 1) (sleeps ++ [500 * attempt]) (rb + 1)
        omega

theorem replayLoop_eq (turns : List TurnDict) :
    replayLoop turns =
      ((turns.filter turnReplayable).map
        (fun t => AgentApiCall.createMessage (turnRole t) (turnContent t)),
       (turns.filter turnReplayable).length) := by
  induction turns with
  | nil => rfl
  | cons t ts ih =>
    by_cases ht : turnReplayable t = true
    · rw [replayLoop, if_pos ht, ih]
      simp [List.filter_cons, ht]
    · rw [replayLoop, if_neg ht, ih]
      simp only [Bool.not_eq_true] at ht
      simp [List.filter_cons, ht]

theorem fallbackGUC_eq (st : ConvServiceState) (u : String) (limit : Nat)
    (agentF : Option String) :
    fallbackGetUserConversations st u limit agentF =
      ((List.insertionSort convGe ((st.memory.map (fun p => p.2)).filter
        (convQualifies u agentF))).take limit).map mkFallbackSummary := by
  unfold fallbackGetUserConversations
  by_cases hA : agentFilterActive agentF = true
  · simp only [hA, if_true]
    rw [List.filter_filter]
    have hf : (st.memory.map (fun p => p.2)).filter
          (fun a => a.agent_id == agentF && (a.user_id == u && a.is_active))
        = (st.memory.map (fun p => p.2)).filter (convQualifies u agentF) := by
      refine List.filter_congr (fun c _ => ?_)
      unfold convQualifies
      rw [hA]
      simp only [if_true]
      rw [Bool.and_comm, Bool.and_assoc]
    rw [hf]
  · have hA' : agentFilterActive agentF = false := by simpa using hA
    simp only [hA', Bool.false_eq_true, if_false]
    have hf : (st.memory.map (fun p => p.2)).filter (fun c => c.user_id == u && c.is_active)
        = (st.memory.map (fun p => p.2)).filter (convQualifies u agentF) := by
      refine List.filter_congr (fun c _ => ?_)
      unfold convQualifies
      rw [hA']
      simp
    rw [hf]

theorem pySlice_of_le (s : String) (n : Nat) (h : pyLen s ≤ n) : pySlice s n = s := by
  unfold pySlice
  rw [List.take_of_length_le h]

theorem pyLen_append (s t : String) : pyLen (s ++ t) = pyLen s + pyLen t := by
  unfold pyLen
  cases s with
  | mk ds =>
    cases t with
    | mk dt => simpa [String.mk] using (List.length_append ds dt)

/-! ### Claim theorems -/

/-- C2: the claim says `add_message` returns the generated message id in both
paths.  Evaluating the model at a healthy durable store shows the durable
path returns the *boolean* `True` (the `bool` result of
`add_message_to_session`), never a message-id string, while the fallback
path does return an id — contradicting the claim and the very docstring of
`add_message` ("Returns: The created message ID if successful").  The message is
nonetheless persisted (the durable store gains one message). -/
theorem C2_durable_append_returns_bool_not_id :
    (convAddMessage demoDurableSt "sess_1" "u1" "hi" "user" []).toOption.map (fun p => p.1)
      = some (PyVal.bool true) ∧
    (∀ s : String,
      (convAddMessage demoDurableSt "sess_1" "u1" "hi" "user" []).toOption.map (fun p => p.1)
        ≠ some (PyVal.str s)) ∧
    (convAddMessage demoDurableSt "sess_1" "u1" "hi" "user" []).toOption.map
      (fun p => p.2.cosmos.map (fun cs => cs.messages.length)) = some (some 1) ∧
    (convAddMessage demoMemSt "conv_0" "u1" "hi" "user" []).toOption.map (fun p => p.1)
      = some (PyVal.str "msg_0") := by
  have h1 : (convAddMessage demoDurableSt "sess_1" "u1" "hi" "user" []).toOption.map
      (fun p => p.1) = some (PyVal.bool true) := by decide
  refine ⟨h1, ?_, by decide, by decide⟩
  intro s hs
  rw [h1] at hs
  simp at hs

/-- C3: the OBO exchange raises immediately on an explicit rejection (one
attempt, no sleep, no client rebuild); a transient failure is retried with
sleeps of 500 ms then 1000 ms and a client rebuild before each retry; two
transient failures followed by a success yield the token on the third
attempt; three transient failures exhaust the budget and re-raise the last
transient error; no run of the loop ever makes more than 3 attempts. -/
theorem C3_obo_exchange_retry_policy
    (oracle1 oracle2 oracle3 oracle4 : Nat → ExchangeAttempt) (e e1 e2 e3 t : String)
    (h1 : oracle1 1 = ExchangeAttempt.rejected e)
    (g1 : oracle2 1 = ExchangeAttempt.transientErr e1)
    (g2 : oracle2 2 = ExchangeAttempt.transientErr e2)
    (g3 : oracle2 3 = ExchangeAttempt.tok t)
    (k1 : oracle3 1 = ExchangeAttempt.transientErr e1)
    (k2 : oracle3 2 = ExchangeAttempt.transientErr e2)
    (k3 : oracle3 3 = ExchangeAttempt.transientErr e3) :
    getAzureAiToken oracle1 =
      { outcome := ExchangeOutcome.authError e, attemptsMade := 1,
        sleepsMs := [], rebuilds := 0 } ∧
    getAzureAiToken oracle2 =
      { outcome := ExchangeOutcome.ok t, attemptsMade := 3,
        sleepsMs := [500, 1000], rebuilds := 2 } ∧
    getAzureAiToken oracle3 =
      { outcome := ExchangeOutcome.exhausted e3, attemptsMade := 3,
        sleepsMs := [500, 1000], rebuilds := 2 } ∧
    (getAzureAiToken oracle4).attemptsMade ≤ 3 := by
  refine ⟨?_, ?_, ?_, ?_⟩
  · simp [getAzureAiToken, maxRetries, exchangeLoop, h1]
  · simp [getAzureAiToken, maxRetries, exchangeLoop, g1, g2, g3]
  · simp [getAzureAiToken, maxRetries, exchangeLoop, k1, k2, k3]
  · simpa [getAzureAiToken, maxRetries] using exchangeLoop_attempts_le oracle4 3 1 [] 0

/-- C3 witness: the retry policy evaluated at concrete oracles. -/
theorem C3_obo_exchange_retry_policy_witness :
    getAzureAiToken (fun _ => ExchangeAttempt.rejected "denied") =
      { outcome := ExchangeOutcome.authError "denied", attemptsMade := 1,
        sleepsMs := [], rebuilds := 0 } ∧
    getAzureAiToken (fun k => if k ≤ 2 then ExchangeAttempt.transientErr "net" else
        ExchangeAttempt.tok "tok") =
      { outcome := ExchangeOutcome.ok "tok", attemptsMade := 3,
        sleepsMs := [500, 1000], rebuilds := 2 } ∧
    getAzureAiToken (fun _ => ExchangeAttempt.transientErr "net") =
      { outcome := ExchangeOutcome.exhausted "net", attemptsMade := 3,
        sleepsMs := [500, 1000], rebuilds := 2 } := by
  have H := C3_obo_exchange_retry_policy
    (fun _ => ExchangeAttempt.rejected "denied")
    (fun k => if k ≤ 2 then ExchangeAttempt.transientErr "net" else ExchangeAttempt.tok "tok")
    (fun _ => ExchangeAttempt.transientErr "net")
    (fun _ => ExchangeAttempt.tok "x")
    "denied" "net" "net" "net" "tok"
    rfl (by decide) (by decide) (by decide) rfl rfl rfl
  exact ⟨H.1, H.2.1, H.2.2.1⟩

/-- C8 counterexample: a prior turn with role `user` and the non-empty
content `"   "` (three spaces) is skipped by `replay_history` — it posts
nothing and reports 0 turns replayed — although the claim, which filters on
"content is non-empty", requires it to be posted.  The code strips the
content (Python `str.strip()`, whose whitespace set also covers the likes of
U+00A0, second instance below) before testing emptiness, and posts the
stripped content (third instance: `" hi "` is posted as `"hi"`, not
verbatim). -/
theorem C8_whitespace_turn_counterexample :
    (replayHistory [{ role := some "user", content := some "   " }]).1 = [] ∧
    (replayHistory [{ role := some "user", content := some "   " }]).2 = 0 ∧
    (some "   " : Option String).getD "" ≠ "" ∧
    turnRole { role := some "user", content := some "   " } = "user" ∧
    (replayHistory [{ role := some "user", content := some "\u00A0" }]).2 = 0 ∧
    (some "\u00A0" : Option String).getD "" ≠ "" ∧
    (replayHistory [{ role := some "user", content := some " hi " }]).1
      = [AgentApiCall.createMessage "user" "hi"] := by
  refine ⟨by decide, by decide, by decide, by decide, by decide, by decide, by decide⟩

/-- C8 (amended): `replay_history` posts, in input order, exactly those prior
turns whose content is non-empty *after stripping whitespace* and whose role
is `user` or `assistant`, posting the stripped content; it issues no
run-creation request, and reports exactly the number of such turns. -/
theorem C8_replay_filters_and_never_runs (turns : List TurnDict) :
    (replayHistory turns).1 =
      (turns.filter turnReplayable).map
        (fun t => AgentApiCall.createMessage (turnRole t) (turnContent t)) ∧
    (replayHistory turns).2 = (turns.filter turnReplayable).length ∧
    (replayHistory turns).1.all (fun c => !(isCreateRun c)) = true := by
  refine ⟨?_, ?_, ?_⟩
  · rw [replayHistory, replayLoop_eq]
  · rw [replayHistory, replayLoop_eq]
  · rw [replayHistory, replayLoop_eq]
    simp only [List.all_eq_true]
    intro c hc
    obtain ⟨t, _, rfl⟩ := List.mem_map.1 hc
    rfl

/-- C9: `create_conversation` with a durable store configured always falls
back to the in-process map: its `create_session` call passes the keyword
`session_data`, which `create_session` does not declare, so the call raises
`TypeError` before any insert; the durable store is left untouched and the
conversation is created in memory under an id starting with `conv_`. -/
theorem C9_create_conversation_always_falls_back
    (st : ConvServiceState) (cs : CosmosState) (h : st.cosmos = some cs)
    (uid uname acid : String) (title agentId : Option String) :
    createSessionCallAccepted = false ∧
    ("session_data" ∈ createConversationCallKeywords ∧
      "session_data" ∉ createSessionParamNames) ∧
    (createConversation st uid uname acid title agentId).2.cosmos = some cs ∧
    (createConversation st uid uname acid title agentId).1.id
      = "conv_" ++ toString st.clock ∧
    (createConversation st uid uname acid title agentId).2.memory =
      st.memory ++ [("conv_" ++ toString st.clock,
        (createConversation st uid uname acid title agentId).1)] := by
  have hacc : createSessionCallAccepted = false := by decide
  refine ⟨hacc, ⟨by decide, by decide⟩, ?_, ?_, ?_⟩ <;>
    simp [createConversation, h, hacc, fallbackCreateConversation]

/-- C9 witness: the fallback creation evaluated on a configured durable
store. -/
theorem C9_create_conversation_always_falls_back_witness :
    (createConversation demoDurableSt "u1" "User One" "thr_9" Option.none Option.none).2.cosmos
      = some demoCs ∧
    (createConversation demoDurableSt "u1" "User One" "thr_9" Option.none Option.none).1.id
      = "conv_" ++ toString demoDurableSt.clock :=
  ⟨(C9_create_conversation_always_falls_back demoDurableSt demoCs rfl "u1" "User One"
      "thr_9" Option.none Option.none).2.2.1,
   (C9_create_conversation_always_falls_back demoDurableSt demoCs rfl "u1" "User One"
      "thr_9" Option.none Option.none).2.2.2.1⟩

/-- C6: on a user message while the title is still a default placeholder the
session title becomes the first 50 characters of the content, with `"..."`
appended exactly when the content is longer than 50 characters (a content of
at most 50 characters becomes the title unchanged); a non-user role or a
non-placeholder title leaves the title alone.  The scenario of the spec holds:
after the first user message the title is that message, and a second user
message leaves it unchanged. -/
theorem C6_title_derivation (now : Nat) (content role : String) (s : SessionDoc) :
    (role = "user" → placeholderTitles.contains s.title = true →
      (touchSession now content role s).title = deriveTitle content) ∧
    (pyLen content ≤ 50 → deriveTitle content = content) ∧
    (50 < pyLen content → deriveTitle content = pySlice content 50 ++ "...") ∧
    (role ≠ "user" → (touchSession now content role s).title = s.title) ∧
    (placeholderTitles.contains s.title = false →
      (touchSession now content role s).title = s.title) ∧
    ((readSession scenarioAfter1 "sess_1" "u1").map (fun d => d.title) = some scenarioQ ∧
     (readSession scenarioAfter2 "sess_1" "u1").map (fun d => d.title) = some scenarioQ) := by
  refine ⟨?_, ?_, ?_, ?_, ?_, by decide, by decide⟩
  · intro hrole hph
    subst hrole
    have hph' : s.title ∈ placeholderTitles := by simpa using hph
    simp [touchSession, hph']
  · intro hle
    unfold deriveTitle
    rw [if_neg (by omega), pySlice_of_le content 50 hle]
    simp
  · intro hgt
    unfold deriveTitle
    rw [if_pos hgt]
  · intro hrole
    simp [touchSession, hrole]
  · intro hph
    have hph' : s.title ∉ placeholderTitles := by simpa using hph
    simp [touchSession, hph']

/-- C6 witness: the title rule applied at a concrete placeholder session. -/
theorem C6_title_derivation_witness :
    placeholderTitles.contains demoSession.title = true ∧
    (touchSession 1 "Hello team" "user" demoSession).title = deriveTitle "Hello team" :=
  ⟨by decide,
   (C6_title_derivation 1 "Hello team" "user" demoSession).1 rfl (by decide)⟩

/-- C4 counterexample: a run in status `"cancelling"` is active (non-terminal),
so the reconciler takes its cancel-and-wait path, yet no cancel request is
issued for it — the clause "issues a cancel for each active run" of the claim fails.  The
call still returns normally after the poll budget with `timedOut = true`. -/
theorem C4_cancelling_run_counterexample :
    isActiveRun { id := "r1", status := "cancelling" } = true ∧
    (ensureNoActiveRuns (fun _ => [{ id := "r1", status := "cancelling" }])
        (fun _ => false) 15).cancelsIssued = [] ∧
    (ensureNoActiveRuns (fun _ => [{ id := "r1", status := "cancelling" }])
        (fun _ => false) 15).timedOut = true := by
  refine ⟨by decide, by decide, by decide⟩

/-- C4 (amended): the reconciler never raises; with no active run it returns
immediately issuing no cancel; otherwise it issues a cancel for each active
run *whose status is cancellable* (`queued`, `in_progress`,
`requires_action`) — an active run in any other non-terminal status (e.g.
`cancelling`) is awaited but not sent a cancel —, the result never depends
on individual cancel failures, and it polls at 0.5 s intervals, returning as
soon as a re-listing shows no active run, or normally after
`maxWaitSeconds` (default 15) has elapsed with a warning. -/
theorem C4_reconciler_behaviour (listRuns : Nat → List AgentRun)
    (cancelFails cancelFails' : String → Bool) (maxWait : Nat) :
    ((activeRunsOf (listRuns 0)).isEmpty = true →
      ensureNoActiveRuns listRuns cancelFails maxWait =
        { cancelsIssued := [], polls := 0, timedOut := false }) ∧
    ((activeRunsOf (listRuns 0)).isEmpty = false →
      (ensureNoActiveRuns listRuns cancelFails maxWait).cancelsIssued =
        ((activeRunsOf (listRuns 0)).filter
          (fun r => cancellableStatuses.contains r.status)).map (fun r => r.id)) ∧
    ensureNoActiveRuns listRuns cancelFails maxWait =
      ensureNoActiveRuns listRuns cancelFails' maxWait ∧
    ((activeRunsOf (listRuns 0)).isEmpty = false →
      (ensureNoActiveRuns listRuns cancelFails maxWait).timedOut = false →
      1 ≤ (ensureNoActiveRuns listRuns cancelFails maxWait).polls ∧
      (ensureNoActiveRuns listRuns cancelFails maxWait).polls ≤ 2 * maxWait ∧
      (activeRunsOf (listRuns
        (ensureNoActiveRuns listRuns cancelFails maxWait).polls)).isEmpty = true ∧
      ∀ j, 1 ≤ j → j < (ensureNoActiveRuns listRuns cancelFails maxWait).polls →
        (activeRunsOf (listRuns j)).isEmpty = false) ∧
    ((activeRunsOf (listRuns 0)).isEmpty = false →
      (ensureNoActiveRuns listRuns cancelFails maxWait).timedOut = true →
      (ensureNoActiveRuns listRuns cancelFails maxWait).polls = 2 * maxWait ∧
      ∀ j, 1 ≤ j → j ≤ 2 * maxWait → (activeRunsOf (listRuns j)).isEmpty = false) := by
  refine ⟨?_, ?_, rfl, ?_, ?_⟩
  · intro h
    simp [ensureNoActiveRuns, h]
  · intro h
    simp [ensureNoActiveRuns, h]
  · intro h ht
    simp only [ensureNoActiveRuns, h, Bool.false_eq_true, if_false] at ht ⊢
    obtain ⟨h1, h2, h3, h4⟩ := pollForTerminal_false listRuns (2 * maxWait) 1 ht
    exact ⟨h1, by omega, h3, h4⟩
  · intro h ht
    simp only [ensureNoActiveRuns, h, Bool.false_eq_true, if_false] at ht ⊢
    obtain ⟨h1, h2⟩ := pollForTerminal_true listRuns (2 * maxWait) 1 ht
    refine ⟨by omega, fun j hj1 hj2 => h2 j hj1 (by omega)⟩

/-- C4 witness: the no-op fast path at a thread with no runs. -/
theorem C4_reconciler_behaviour_witness :
    ensureNoActiveRuns (fun _ => ([] : List AgentRun)) (fun _ => false) 15 =
      { cancelsIssued := [], polls := 0, timedOut := false } :=
  (C4_reconciler_behaviour (fun _ => []) (fun _ => false) (fun _ => true) 15).1 (by decide)

/-- C10: `update_message_feedback` never touches the durable store — the class
defines no `update_message_feedback` method, so the durable call raises
`AttributeError`, which is swallowed; whatever a durable implementation would
have done (`durableUpdate`) is irrelevant to the result, and any normally
returned state carries the durable store unchanged.  For a feedback argument
the enum coercion admits (`None`, `""`, `"positive"`, `"negative"`) the call
returns `True` exactly when the in-process map holds the session and it
contains a message with the given id, whose feedback field is then set in
place to the coerced value, and returns `False` otherwise; for any other
string the fallback block raises `ValueError` precisely when a matching
message exists (the coercion sits inside the match arm), and returns `False`
otherwise. -/
theorem C10_feedback_never_durable
    (durableUpdate durableUpdate' : CosmosState → Bool × CosmosState)
    (st : ConvServiceState) (sessionId messageId : String) (feedback : Option String) :
    ("update_message_feedback" ∉ cosmosServiceMethodNames) ∧
    updateMessageFeedback durableUpdate st sessionId messageId feedback
      = fallbackUpdateFeedback st sessionId messageId feedback ∧
    updateMessageFeedback durableUpdate st sessionId messageId feedback
      = updateMessageFeedback durableUpdate' st sessionId messageId feedback ∧
    (∀ b st', updateMessageFeedback durableUpdate st sessionId messageId feedback
        = Except.ok (b, st') → st'.cosmos = st.cosmos) ∧
    (∀ v, coerceFeedback feedback = Except.ok v →
      ((∃ st', updateMessageFeedback durableUpdate st sessionId messageId feedback
          = Except.ok (true, st')) ↔
        ∃ conv, lookupConv st.memory sessionId = some conv ∧
          conv.messages.any (fun m => m.id == messageId) = true) ∧
      (∀ conv ms, lookupConv st.memory sessionId = some conv →
        setFirstFeedbackValue messageId v conv.messages = some ms →
        updateMessageFeedback durableUpdate st sessionId messageId feedback
          = Except.ok (true, { st with
              memory := updateConv st.memory sessionId
                (fun c => { c with messages := ms }) })) ∧
      ((¬ ∃ conv, lookupConv st.memory sessionId = some conv ∧
          conv.messages.any (fun m => m.id == messageId) = true) →
        updateMessageFeedback durableUpdate st sessionId messageId feedback
          = Except.ok (false, st))) ∧
    (∀ e, coerceFeedback feedback = Except.error e →
      ((∀ conv, lookupConv st.memory sessionId = some conv →
        conv.messages.any (fun m => m.id == messageId) = true →
        updateMessageFeedback durableUpdate st sessionId messageId feedback
          = Except.error e) ∧
       ((¬ ∃ conv, lookupConv st.memory sessionId = some conv ∧
          conv.messages.any (fun m => m.id == messageId) = true) →
        updateMessageFeedback durableUpdate st sessionId messageId feedback
          = Except.ok (false, st)))) := by
  have hnotmem : "update_message_feedback" ∉ cosmosServiceMethodNames := by decide
  have hfb : updateMessageFeedback durableUpdate st sessionId messageId feedback
      = fallbackUpdateFeedback st sessionId messageId feedback := by
    cases hc : st.cosmos with
    | none => simp [updateMessageFeedback, hc]
    | some cs => simp [updateMessageFeedback, hc, hnotmem]
  have hfb' : updateMessageFeedback durableUpdate' st sessionId messageId feedback
      = fallbackUpdateFeedback st sessionId messageId feedback := by
    cases hc : st.cosmos with
    | none => simp [updateMessageFeedback, hc]
    | some cs => simp [updateMessageFeedback, hc, hnotmem]
  refine ⟨hnotmem, hfb, by rw [hfb, hfb'], ?_, ?_, ?_⟩
  · intro b st' h
    rw [hfb] at h
    cases hl : lookupConv st.memory sessionId with
    | none =>
      simp [fallbackUpdateFeedback, hl] at h
      rw [← h.2]
    | some conv =>
      cases hsf : setFeedbackFirst messageId feedback conv.messages with
      | error e => simp [fallbackUpdateFeedback, hl, hsf] at h
      | ok o =>
        cases o with
        | none =>
          simp [fallbackUpdateFeedback, hl, hsf] at h
          rw [← h.2]
        | some ms =>
          simp [fallbackUpdateFeedback, hl, hsf] at h
          rw [← h.2]
  · intro v hv
    have hset := setFeedbackFirst_coerce_ok messageId feedback v hv
    refine ⟨?_, ?_, ?_⟩
    · rw [hfb]
      cases hl : lookupConv st.memory sessionId with
      | none =>
        simp [fallbackUpdateFeedback, hl]
      | some conv =>
        cases hp : setFirstFeedbackValue messageId v conv.messages with
        | none =>
          have hany : conv.messages.any (fun m => m.id == messageId) = false := by
            have := setFirstFeedbackValue_isSome messageId v conv.messages
            rw [hp] at this
            simpa using this.symm
          simp only [fallbackUpdateFeedback, hl, hset conv.messages, hp]
          simp
          simpa using hany
        | some ms =>
          have hany : conv.messages.any (fun m => m.id == messageId) = true := by
            have := setFirstFeedbackValue_isSome messageId v conv.messages
            rw [hp] at this
            simpa using this.symm
          simp only [fallbackUpdateFeedback, hl, hset conv.messages, hp]
          simp
          simpa using hany
    · intro conv ms hl hp
      rw [hfb]
      simp [fallbackUpdateFeedback, hl, hset conv.messages, hp]
    · intro hno
      rw [hfb]
      cases hl : lookupConv st.memory sessionId with
      | none => simp [fallbackUpdateFeedback, hl]
      | some conv =>
        have hany : conv.messages.any (fun m => m.id == messageId) = false := by
          cases ha : conv.messages.any (fun m => m.id == messageId) with
          | false => rfl
          | true => exact absurd ⟨conv, hl, ha⟩ hno
        have hp : setFirstFeedbackValue messageId v conv.messages = Option.none := by
          have := setFirstFeedbackValue_isSome messageId v conv.messages
          rw [hany] at this
          exact Option.not_isSome_iff_eq_none.1 (by simp [this])
        simp [fallbackUpdateFeedback, hl, hset conv.messages, hp]
  · intro e he
    have hset := setFeedbackFirst_coerce_error messageId feedback e he
    refine ⟨?_, ?_⟩
    · intro conv hl hany
      rw [hfb]
      have := hset conv.messages
      rw [if_pos hany] at this
      simp [fallbackUpdateFeedback, hl, this]
    · intro hno
      rw [hfb]
      cases hl : lookupConv st.memory sessionId with
      | none => simp [fallbackUpdateFeedback, hl]
      | some conv =>
        have hany : conv.messages.any (fun m => m.id == messageId) = false := by
          cases ha : conv.messages.any (fun m => m.id == messageId) with
          | false => rfl
          | true => exact absurd ⟨conv, hl, ha⟩ hno
        have hthis := hset conv.messages
        rw [if_neg (by simp [hany])] at hthis
        simp [fallbackUpdateFeedback, hl, hthis]

/-- C10 witness: a valid feedback value applied in the fallback map while a
durable store is configured; the provided durable behaviour is ignored. -/
theorem C10_feedback_never_durable_witness :
    coerceFeedback (some "positive") = Except.ok (some "positive") ∧
    (∃ st', updateMessageFeedback (fun cs => (true, cs)) feedbackSt "conv_9" "m9"
        (some "positive") = Except.ok (true, st')) :=
  ⟨rfl,
   (((C10_feedback_never_durable (fun cs => (true, cs)) (fun cs => (false, cs)) feedbackSt
        "conv_9" "m9" (some "positive")).2.2.2.2.1 (some "positive") rfl).1).mpr
     ⟨feedbackConv, by decide, by decide⟩⟩

/-- C1: appends to one session round-trip through the listing in order with
content, role and attachments preserved, in both paths.  Durable path: a
sequence of `add_message_to_session` calls on an existing owner-verified
session with no prior messages, read back by `get_session_messages`
(`ORDER BY createdAt ASC`).  Fallback path: a sequence of in-memory appends
on an owner-matching conversation, read back through the fallback
`get_conversation_messages`. -/
theorem C1_append_list_round_trip :
    (∀ (cs : CosmosState) (sid uid : String) (reqs : List AppendReq),
      (readSession cs sid uid).isSome = true →
      (∀ m ∈ cs.messages, (m.sessionId == sid) = false) →
      (∀ r ∈ reqs, validRoles.contains r.role = true) →
      (getSessionMessages (cosmosAppendAll sid uid cs reqs) sid).map
          (fun m => (m.content, m.role, m.attachments))
        = reqs.map (fun r => (r.content, r.role, r.attachments))) ∧
    (∀ (st : ConvServiceState) (cid uid : String) (conv : Conversation)
        (reqs : List AppendReq),
      lookupConv st.memory cid = some conv →
      (conv.user_id == uid) = true →
      conv.messages = [] →
      (∀ r ∈ reqs, validRoles.contains r.role = true) →
      (fallbackGetMessages (fallbackAppendAll cid uid st reqs) cid uid).map
          (fun m => (m.content, m.role, m.attachments))
        = reqs.map (fun r => (r.content, r.role, r.attachments))) := by
  constructor
  · intro cs sid uid reqs hs hfresh hv
    have hmsgs := cosmosAppendAll_messages sid uid reqs cs hs hv
    unfold getSessionMessages sessionMessages
    rw [hmsgs, List.filter_append]
    have h0 : cs.messages.filter (fun m => m.sessionId == sid) = [] :=
      List.filter_eq_nil_iff.2 (fun m hm => by simp [hfresh m hm])
    rw [h0, mkMsgs_filter_self, List.nil_append,
      (mkMsgs_sorted sid reqs cs.now).insertionSort_eq]
    exact mkMsgs_proj sid reqs cs.now
  · intro st cid uid conv reqs hl hu hempty hv
    obtain ⟨conv', h1, h2, h3⟩ := fallbackAppendAll_spec cid uid reqs st conv hl hu hv
    unfold fallbackGetMessages
    rw [h1]
    have hu' : (conv'.user_id == uid) = true := by rw [h2]; exact hu
    simp only [hu', if_true]
    rw [h3, hempty, List.nil_append]
    exact mkMsgs_proj cid reqs st.clock

/-- C1 witness: two appends (user with an attachment, then assistant)
round-trip in order on both paths. -/
theorem C1_append_list_round_trip_witness :
    (getSessionMessages (cosmosAppendAll "sess_1" "u1" demoCs demoReqs) "sess_1").map
        (fun m => (m.content, m.role, m.attachments))
      = demoReqs.map (fun r => (r.content, r.role, r.attachments)) ∧
    (fallbackGetMessages (fallbackAppendAll "conv_0" "u1" demoMemSt demoReqs)
        "conv_0" "u1").map (fun m => (m.content, m.role, m.attachments))
      = demoReqs.map (fun r => (r.content, r.role, r.attachments)) :=
  ⟨C1_append_list_round_trip.1 demoCs "sess_1" "u1" demoReqs (by decide) (by decide)
      (by decide),
   C1_append_list_round_trip.2 demoMemSt "conv_0" "u1" demoConv demoReqs (by decide)
      (by decide) (by decide) (by decide)⟩

theorem mkMsgs_map_slice (sid : String) :
    ∀ (reqs : List AppendReq) (n : Nat),
      (mkMsgs sid n reqs).map (fun m => pySlice m.content 100)
        = reqs.map (fun r => pySlice r.content 100) := by
  intro reqs
  induction reqs with
  | nil => intro n; rfl
  | cons r rs ih => intro n; simp [mkMsgs, ih]

/-- C5: `listSessions` returns, in both paths, summaries of exactly the
active sessions of the owner (optionally agent-filtered), ordered by last
activity descending and truncated to `limit`: every returned summary stems
from a session owned by the requesting user that is not soft-deleted (and
matching the agent filter when one is given); at most `limit` summaries are
returned, in non-increasing `lastActiveAt` order; and whenever the
qualifying sessions fit in `limit`, each of them is returned. -/
theorem C5_list_sessions_scoped_sorted_limited (cs : CosmosState)
    (st : ConvServiceState) (u : String) (limit : Nat) (agentF : Option String) :
    (∀ sum ∈ getUserConversations cs u limit agentF, ∃ s, s ∈ cs.sessions ∧
      s.userId = u ∧ s.is_active = true ∧
      (agentFilterActive agentF = true → s.agentId = agentF) ∧
      sum = mkCosmosSummary cs s) ∧
    (getUserConversations cs u limit agentF).length ≤ limit ∧
    (getUserConversations cs u limit agentF).Pairwise
      (fun a b => b.updated_at ≤ a.updated_at) ∧
    ((cs.sessions.filter (sessionQualifies u agentF)).length ≤ limit →
      ∀ s ∈ cs.sessions, sessionQualifies u agentF s = true →
        mkCosmosSummary cs s ∈ getUserConversations cs u limit agentF) ∧
    (∀ sum ∈ fallbackGetUserConversations st u limit agentF, ∃ c,
      c ∈ st.memory.map (fun p => p.2) ∧ c.user_id = u ∧ c.is_active = true ∧
      (agentFilterActive agentF = true → c.agent_id = agentF) ∧
      sum = mkFallbackSummary c) ∧
    (fallbackGetUserConversations st u limit agentF).length ≤ limit ∧
    (fallbackGetUserConversations st u limit agentF).Pairwise
      (fun a b => b.updated_at ≤ a.updated_at) ∧
    (((st.memory.map (fun p => p.2)).filter (convQualifies u agentF)).length ≤ limit →
      ∀ c ∈ st.memory.map (fun p => p.2), convQualifies u agentF c = true →
        mkFallbackSummary c ∈ fallbackGetUserConversations st u limit agentF) := by
  refine ⟨?_, ?_, ?_, ?_, ?_, ?_, ?_, ?_⟩
  · intro sum hsum
    obtain ⟨s, hstake, rfl⟩ := List.mem_map.1 hsum
    have hsort : s ∈ List.insertionSort sessGe
        (cs.sessions.filter (sessionQualifies u agentF)) := List.mem_of_mem_take hstake
    obtain ⟨hmem, hq⟩ := List.mem_filter.1 ((List.mem_insertionSort sessGe).1 hsort)
    have hq' := hq
    simp only [sessionQualifies, Bool.and_eq_true, beq_iff_eq] at hq'
    refine ⟨s, hmem, hq'.1.1.1, hq'.1.2, ?_, rfl⟩
    intro hA
    have hif := hq'.2
    rw [if_pos hA] at hif
    exact beq_iff_eq.1 hif
  · unfold getUserConversations
    rw [List.length_map]
    exact List.length_take_le limit _
  · unfold getUserConversations
    have h1 : List.Sorted sessGe (List.insertionSort sessGe
        (cs.sessions.filter (sessionQualifies u agentF))) :=
      List.sorted_insertionSort sessGe _
    have h2 : List.Pairwise sessGe ((List.insertionSort sessGe
        (cs.sessions.filter (sessionQualifies u agentF))).take limit) :=
      h1.sublist (List.take_sublist limit _)
    exact h2.map (mkCosmosSummary cs) (fun a b hab => hab)
  · intro hlen s hs hq
    unfold getUserConversations
    have hlen' : (List.insertionSort sessGe
        (cs.sessions.filter (sessionQualifies u agentF))).length ≤ limit := by
      rw [List.length_insertionSort]; exact hlen
    rw [List.take_of_length_le hlen']
    exact List.mem_map.2 ⟨s, (List.mem_insertionSort sessGe).2
      (List.mem_filter.2 ⟨hs, hq⟩), rfl⟩
  · intro sum hsum
    rw [fallbackGUC_eq] at hsum
    obtain ⟨c, hctake, rfl⟩ := List.mem_map.1 hsum
    have hsort : c ∈ List.insertionSort convGe
        ((st.memory.map (fun p => p.2)).filter (convQualifies u agentF)) :=
      List.mem_of_mem_take hctake
    obtain ⟨hmem, hq⟩ := List.mem_filter.1 ((List.mem_insertionSort convGe).1 hsort)
    have hq' := hq
    simp only [convQualifies, Bool.and_eq_true, beq_iff_eq] at hq'
    refine ⟨c, hmem, hq'.1.1, hq'.1.2, ?_, rfl⟩
    intro hA
    have hif := hq'.2
    rw [if_pos hA] at hif
    exact beq_iff_eq.1 hif
  · rw [fallbackGUC_eq, List.length_map]
    exact List.length_take_le limit _
  · rw [fallbackGUC_eq]
    have h1 : List.Sorted convGe (List.insertionSort convGe
        ((st.memory.map (fun p => p.2)).filter (convQualifies u agentF))) :=
      List.sorted_insertionSort convGe _
    have h2 : List.Pairwise convGe ((List.insertionSort convGe
        ((st.memory.map (fun p => p.2)).filter (convQualifies u agentF))).take limit) :=
      h1.sublist (List.take_sublist limit _)
    exact h2.map mkFallbackSummary (fun a b hab => hab)
  · intro hlen c hc hq
    rw [fallbackGUC_eq]
    have hlen' : (List.insertionSort convGe
        ((st.memory.map (fun p => p.2)).filter (convQualifies u agentF))).length ≤ limit := by
      rw [List.length_insertionSort]; exact hlen
    rw [List.take_of_length_le hlen']
    exact List.mem_map.2 ⟨c, (List.mem_insertionSort convGe).2
      (List.mem_filter.2 ⟨hc, hq⟩), rfl⟩

/-- C5 witness: the active session and conversation of the owner are listed in
both paths. -/
theorem C5_list_sessions_scoped_sorted_limited_witness :
    mkCosmosSummary demoCs demoSession ∈ getUserConversations demoCs "u1" 50 Option.none ∧
    mkFallbackSummary demoConv ∈ fallbackGetUserConversations demoMemSt "u1" 50 Option.none :=
  ⟨(C5_list_sessions_scoped_sorted_limited demoCs demoMemSt "u1" 50 Option.none).2.2.2.1
      (by decide) demoSession (by decide) (by decide),
   (C5_list_sessions_scoped_sorted_limited demoCs demoMemSt "u1" 50 Option.none).2.2.2.2.2.2.2
      (by decide) demoConv (by decide) (by decide)⟩

/-- C7 counterexample: in the fallback path the `last_message` of a summary
is the *full* content of the last message.  With a 101-character content the summary
carries all 101 characters, not the 100-character truncation the claim
requires for both paths (the durable path does truncate, as
`C7_preview_and_count_aggregates` shows). -/
theorem C7_untruncated_fallback_preview_counterexample :
    (fallbackGetUserConversations overlongSt "u1" 50 Option.none).map
      (fun x => x.last_message) = [some longContent] ∧
    pyLen longContent = 101 ∧
    some longContent ≠ some (pySlice longContent 100) ∧
    getLastMessage overlongCs "sess_1" = some (pySlice longContent 100) := by
  refine ⟨by decide, by decide, by decide, by decide⟩

/-- C7 (amended): both paths compute `lastMessagePreview` and `messageCount`
at read time from the messages of the session, and `messageCount` is the number
of messages; but the 100-character truncation of the preview applies only in
the durable path — there the preview is the most recently appended content
truncated to 100 characters, while the fallback path returns the last
full, untruncated content of the last message. -/
theorem C7_preview_and_count_aggregates :
    (∀ (cs : CosmosState) (u : String) (limit : Nat) (agentF : Option String),
      ∀ sum ∈ getUserConversations cs u limit agentF, ∃ s, s ∈ cs.sessions ∧
        sum.last_message = getLastMessage cs s.id ∧
        sum.message_count = getMessageCount cs s.id) ∧
    (∀ (cs : CosmosState) (sid uid : String) (reqs : List AppendReq),
      (readSession cs sid uid).isSome = true →
      (∀ m ∈ cs.messages, (m.sessionId == sid) = false) →
      (∀ r ∈ reqs, validRoles.contains r.role = true) →
      getLastMessage (cosmosAppendAll sid uid cs reqs) sid
        = (reqs.getLast?).map (fun r => pySlice r.content 100) ∧
      getMessageCount (cosmosAppendAll sid uid cs reqs) sid = reqs.length) ∧
    (∀ (st : ConvServiceState) (u : String) (limit : Nat) (agentF : Option String),
      ∀ sum ∈ fallbackGetUserConversations st u limit agentF, ∃ c,
        c ∈ st.memory.map (fun p => p.2) ∧
        sum.last_message = c.messages.getLast?.map (fun m => m.content) ∧
        sum.message_count = c.messages.length) := by
  refine ⟨?_, ?_, ?_⟩
  · intro cs u limit agentF sum hsum
    obtain ⟨s, hstake, rfl⟩ := List.mem_map.1 hsum
    have hsort : s ∈ List.insertionSort sessGe
        (cs.sessions.filter (sessionQualifies u agentF)) := List.mem_of_mem_take hstake
    obtain ⟨hmem, _⟩ := List.mem_filter.1 ((List.mem_insertionSort sessGe).1 hsort)
    exact ⟨s, hmem, rfl, rfl⟩
  · intro cs sid uid reqs hs hfresh hv
    have hmsgs := cosmosAppendAll_messages sid uid reqs cs hs hv
    have h0 : cs.messages.filter (fun m => m.sessionId == sid) = [] :=
      List.filter_eq_nil_iff.2 (fun m hm => by simp [hfresh m hm])
    have hsm : sessionMessages (cosmosAppendAll sid uid cs reqs) sid
        = mkMsgs sid cs.now reqs := by
      unfold sessionMessages
      rw [hmsgs, List.filter_append, h0, mkMsgs_filter_self, List.nil_append]
    constructor
    · rw [getLastMessage_eq_head?, hsm,
        insertionSort_desc_of_pairwise_lt _ (mkMsgs_pairwise_lt sid reqs cs.now),
        List.head?_reverse]
      rw [← List.getLast?_map, ← List.getLast?_map, mkMsgs_map_slice]
    · unfold getMessageCount
      rw [hsm, mkMsgs_length]
  · intro st u limit agentF sum hsum
    rw [fallbackGUC_eq] at hsum
    obtain ⟨c, hctake, rfl⟩ := List.mem_map.1 hsum
    have hsort : c ∈ List.insertionSort convGe
        ((st.memory.map (fun p => p.2)).filter (convQualifies u agentF)) :=
      List.mem_of_mem_take hctake
    obtain ⟨hmem, _⟩ := List.mem_filter.1 ((List.mem_insertionSort convGe).1 hsort)
    exact ⟨c, hmem, rfl, rfl⟩

/-- C7 witness: the durable read-time aggregates after two appends. -/
theorem C7_preview_and_count_aggregates_witness :
    getLastMessage (cosmosAppendAll "sess_1" "u1" demoCs demoReqs) "sess_1"
      = (demoReqs.getLast?).map (fun r => pySlice r.content 100) ∧
    getMessageCount (cosmosAppendAll "sess_1" "u1" demoCs demoReqs) "sess_1"
      = demoReqs.length :=
  C7_preview_and_count_aggregates.2.1 demoCs "sess_1" "u1" demoReqs (by decide) (by decide)
    (by decide)

end CCAI
